import Mathlib

/-!
Shallow embedding of the payload-building core of
`src/streamlit_app.py` (a Streamlit dashboard over a complaints CSV),
together with theorems settling the frozen claims about it.

Modelling conventions
- A CSV cell is `Cell`: `null` stands for a missing value (pandas NaN),
  `num q` for any value pandas holds as (or coerces to) a number, and
  `str s` for text that pandas cannot coerce to a number.
- A `DataFrame` is the list of rows plus the list of column names present
  in the CSV header; the Python code guards every column access with
  `"c" in df.columns`, which we mirror with membership in `cols`.
- `pd.crosstab(a, b)` drops rows where either key is missing and returns a
  table whose row index and column index are the distinct keys sorted
  ascending; we model it by the list of (row-key, col-key) pairs plus the
  two sorted deduplicated index lists.
- `DataFrame.sort_values(col, ascending=False)` defaults to numpy
  quicksort (introsort), whose order among equal keys is
  implementation-defined for arrays of 17 or more elements; we model the
  call as a descending insertion sort on the row-total key.  Every
  theorem below about the emitted row order uses only consequences valid
  for any correct descending sort (permutation and sortedness), never
  the tie order of this model.
-/

namespace NA

/-- A CSV cell as pandas sees it: missing (NaN), numeric, or
non-numeric text. -/
inductive Cell where
  | null : Cell
  | num : ℚ → Cell
  | str : String → Cell
deriving DecidableEq, Repr

/-- One input row.  Absent columns are only ever read behind a membership
test on `DataFrame.cols`, so a default of `null` is never observed. -/
structure Row where
  state : Cell := Cell.null
  district : Cell := Cell.null
  issue_type : Cell := Cell.null
  status : Cell := Cell.null
  signal_strength : Cell := Cell.null
  reported_date : Cell := Cell.null
deriving DecidableEq, Repr

/-- The loaded CSV: its header (column names) and its rows. -/
structure DataFrame where
  cols : List String
  rows : List Row
deriving DecidableEq, Repr

/-- Grouping key of a cell: missing values yield no key (pandas groupby and
crosstab drop them); numbers key by their printed form. -/
def cellKey : Cell → Option String
  | Cell.null => none
  | Cell.num q => some (toString q)
  | Cell.str s => some s

/-- `str(x)` of a non-missing cell, as Python renders it. -/
def cellStr : Cell → String
  | Cell.null => "nan"
  | Cell.num q => toString q
  | Cell.str s => s

/-- The non-missing values of one column, in row order
(what `df[c].dropna()` iterates). -/
def keysOf (f : Row → Cell) (df : DataFrame) : List String :=
  df.rows.filterMap (fun r => cellKey (f r))

/-- Python `str.strip()`: drop leading and trailing whitespace.
(Implemented over the character list so that proofs can evaluate it.) -/
def py_strip (s : String) : String :=
  String.mk (((s.toList.dropWhile Char.isWhitespace).reverse.dropWhile
    Char.isWhitespace).reverse)

/-- Split a character list at every occurrence of a separator. -/
def splitOnChar (sep : Char) : List Char → List (List Char)
  | [] => [[]]
  | c :: cs =>
    match splitOnChar sep cs, decide (c = sep) with
    | r, true => [] :: r
    | [], false => [[c]]
    | g :: gs, false => (c :: g) :: gs

/-- Parse a non-empty all-digit character list as a number. -/
def digitsToNat? (cs : List Char) : Option ℕ :=
  if cs = [] then none
  else if cs.all (fun c => c.isDigit) then
    some (cs.foldl (fun n c => 10 * n + (c.toNat - 48)) 0)
  else none

/-- Embedding of `norm_status` (lines 97-107): missing goes to `"Other"`,
otherwise the trimmed text is mapped `Submitted` to `Open`, `In Progress`
to itself, `Resolved` to `Closed`, and anything else passes through
trimmed.  Total function, no error case. -/
def norm_status (c : Cell) : String :=
  match c with
  | Cell.null => "Other"
  | _ =>
    let x := py_strip (cellStr c)
    if x = "Submitted" then "Open"
    else if x = "In Progress" then "In Progress"
    else if x = "Resolved" then "Closed"
    else x

/-- Embedding of `pd.to_numeric(s, errors="coerce")` on one cell: numbers
survive, missing and non-coercible text become `none` (NaN). -/
def to_numeric_coerce : Cell → Option ℚ
  | Cell.num q => some q
  | _ => none

/-- The threshold ladder inside `bucket_signal_strength` (lines 37-45). -/
def bucket_label (v : ℚ) : String :=
  if v ≤ 0 then "No Signal"
  else if v ≤ 2 then "Weak"
  else if v ≤ 3 then "Moderate"
  else "Strong"

/-- Embedding of `bucket_signal_strength` (lines 33-47) applied to one
cell: `to_numeric(errors="coerce").fillna(0)` then the threshold ladder. -/
def bucket_signal_strength (c : Cell) : String :=
  bucket_label ((to_numeric_coerce c).getD 0)

/-- The module constant `MONTH_ORDER` (lines 17-20). -/
def MONTH_ORDER : List String :=
  ["January", "February", "March", "April", "May", "June",
   "July", "August", "September", "October", "November", "December"]

/-- Embedding of `pd.to_datetime(x, errors="coerce").dt.month` on one
cell, modelled for ISO `YYYY-MM-DD` date strings: a well-formed date
yields its month (as `Fin 12`, month number minus one); anything else is
NaT, hence `none`.  Missing and numeric cells do not parse. -/
def parse_month (c : Cell) : Option (Fin 12) :=
  match c with
  | Cell.str s =>
    match splitOnChar (Char.ofNat 45) (py_strip s).toList with
    | [y, m, d] =>
      match digitsToNat? y, digitsToNat? m, digitsToNat? d with
      | some _, some mn, some dn =>
        if h : 1 ≤ mn ∧ mn ≤ 12 ∧ 1 ≤ dn ∧ dn ≤ 31 then
          some ⟨mn - 1, by omega⟩
        else none
      | _, _, _ => none
    | _ => none
  | _ => none

/-- Embedding of `derive_reported_month_series` (lines 25-31): an empty
series when the date column is absent, else one entry per row holding the
month of the parsed date (`none` for NaT). -/
def derive_reported_month_series (df : DataFrame) : List (Option (Fin 12)) :=
  if "reported_date" ∈ df.cols then
    df.rows.map (fun r => parse_month r.reported_date)
  else []

/-- Python `str.title()`: alphabetic characters are uppercased after a
non-alphabetic character (or at the start) and lowercased otherwise. -/
def str_title (s : String) : String :=
  (s.toList.foldl
    (fun acc c =>
      if c.isAlpha then
        (acc.1.push (if acc.2 then c.toLower else c.toUpper), true)
      else (acc.1.push c, false))
    ("", false)).1

/-- One entry of `months.astype(str)` (line 160): a parsed month prints as
its full English name, NaT prints as the string of NaN, which is
`"nan"`. -/
def month_astype_str (o : Option (Fin 12)) : String :=
  match o with
  | some i => MONTH_ORDER.getD i.val ""
  | none => "nan"

/-- Embedding of the `reported` block (lines 155-161): twelve slots in
month order; when the month series is empty every slot is zero, otherwise
each slot counts the series entries whose stripped title-cased label
equals that month name. -/
def reported (df : DataFrame) : List (String × ℕ) :=
  if (derive_reported_month_series df).isEmpty then
    MONTH_ORDER.map (fun m => (m, 0))
  else
    MONTH_ORDER.map (fun m => (m,
      ((derive_reported_month_series df).map
        (fun o => str_title (py_strip (month_astype_str o)))).count m))

/-- Insert `x` into a list before the first element whose key is strictly
smaller; among equal keys the new element goes last. -/
def insertDesc {α : Type} (key : α → ℕ) (x : α) : List α → List α
  | [] => [x]
  | y :: ys => if key y < key x then x :: y :: ys else y :: insertDesc key x ys

/-- Descending insertion sort on a numeric key: an executable model of
`sort_values("__total__", ascending=False)`.  The real call uses numpy
quicksort, so its order among equal keys is implementation-defined for
arrays of 17 or more rows (below that numpy runs a plain insertion
sort); no theorem below relies on this model's tie order. -/
def sortDescBy {α : Type} (key : α → ℕ) (l : List α) : List α :=
  l.foldl (fun acc x => insertDesc key x acc) []

/-- Lexicographic strict comparison of character lists by code point:
the order Python string comparison and pandas index sorting use.
(Implemented directly so that proofs can evaluate it.) -/
def charListLt : List Char → List Char → Bool
  | _, [] => false
  | [], _ :: _ => true
  | a :: as, b :: bs =>
    if a.toNat < b.toNat then true
    else if b.toNat < a.toNat then false
    else charListLt as bs

/-- Strict lexicographic comparison of strings. -/
def strLt (a b : String) : Bool := charListLt a.toList b.toList

/-- Insert a string into a list before the first strictly larger element. -/
def insertAsc (x : String) : List String → List String
  | [] => [x]
  | y :: ys => if strLt x y then x :: y :: ys else y :: insertAsc x ys

/-- Ascending insertion sort on strings: the order pandas gives a
crosstab index / `sorted(...)` gives a Python list. -/
def sortAsc (l : List String) : List String :=
  l.foldl (fun acc x => insertAsc x acc) []

/-- The (row-key, column-key) pairs a `pd.crosstab(a, b)` call counts:
one pair per row in which both keys are non-missing. -/
def crosstab_pairs (rk ck : Row → Option String) (rows : List Row) :
    List (String × String) :=
  rows.filterMap (fun r =>
    match rk r, ck r with
    | some a, some b => some (a, b)
    | _, _ => none)

/-- A crosstab: its ascending row index, ascending column index, and the
multiset of counted pairs. -/
structure Crosstab where
  index : List String
  columns : List String
  pairs : List (String × String)
deriving Repr

/-- Embedding of `pd.crosstab(a, b)`. -/
def crosstab (rk ck : Row → Option String) (rows : List Row) : Crosstab :=
  let ps := crosstab_pairs rk ck rows
  { index := sortAsc (ps.map Prod.fst).dedup
    columns := sortAsc (ps.map Prod.snd).dedup
    pairs := ps }

/-- The count in cell (state `s`, column `c`) of a crosstab. -/
def ctCount (ct : Crosstab) (s c : String) : ℕ :=
  ct.pairs.count (s, c)

/-- The `__total__` column (sum across the currently selected columns)
used as the descending sort key. -/
def rowTotal (ct : Crosstab) (cols : List String) (s : String) : ℕ :=
  (cols.map (fun c => ctCount ct s c)).sum

/-- One emitted matrix object: row labels, column labels, and the mapping
from column label to the counts aligned with the row labels.  The Python
dicts name the column-label key `issue_types` / `statuses` /
`signal_strengths` per table; here it is uniformly `labels`.  `error` is
the extra diagnostic field only the signal matrix ever carries. -/
structure MatrixOut where
  states : List String
  labels : List String
  matrix : List (String × List ℕ)
  error : Option String := none
deriving DecidableEq, Repr

/-- The shared tail of the three matrix builders: select the given
columns, append `__total__`, sort rows by it descending, drop it, and emit
the dict (lines 83-88, 117-123, 138-145). -/
def emitMatrix (ct : Crosstab) (cols : List String) : MatrixOut :=
  let states := sortDescBy (rowTotal ct cols) ct.index
  { states := states
    labels := cols
    matrix := cols.map (fun c => (c, states.map (fun s => ctCount ct s c))) }

/-- The crosstab of line 82: state against issue type. -/
def issue_ct (df : DataFrame) : Crosstab :=
  crosstab (fun r => cellKey r.state) (fun r => cellKey r.issue_type) df.rows

/-- Embedding of the state-issue matrix block (lines 81-91). -/
def issue_matrix (df : DataFrame) : MatrixOut :=
  if "state" ∈ df.cols ∧ "issue_type" ∈ df.cols then
    emitMatrix (issue_ct df) (issue_ct df).columns
  else { states := [], labels := [], matrix := [] }

/-- The fixed dashboard status column order (line 113). -/
def status_order : List String := ["Open", "In Progress", "Closed"]

/-- The crosstab of line 112: state against the normalized status column
`_status_norm_` (which is never missing). -/
def status_ct (df : DataFrame) : Crosstab :=
  crosstab (fun r => cellKey r.state) (fun r => some (norm_status r.status)) df.rows

/-- Embedding of the state-status matrix block (lines 95-126): crosstab of
state against the normalized status; any fixed label absent from the data
is added as a zero column, then `ct = ct[status_order]` keeps exactly the
three fixed columns (dropping every other normalized label) before the
total is computed and the rows are sorted. -/
def status_matrix (df : DataFrame) : MatrixOut :=
  if "state" ∈ df.cols ∧ "status" ∈ df.cols then
    emitMatrix (status_ct df) status_order
  else { states := [], labels := [], matrix := [] }

/-- The preferred signal column order (line 133). -/
def preferred_order : List String := ["Strong", "Moderate", "Weak", "No Signal"]

/-- The crosstab of line 131: state against the bucketed signal strength
(which is never missing, since the bucketizer totalizes its input). -/
def signal_ct (df : DataFrame) : Crosstab :=
  crosstab (fun r => cellKey r.state)
    (fun r => some (bucket_signal_strength r.signal_strength)) df.rows

/-- The reordered signal columns of lines 133-136: the preferred labels
that occur in the crosstab, in preferred order, then the remaining
observed columns sorted. -/
def signal_cols (df : DataFrame) : List String :=
  let existing := preferred_order.filter (fun x => x ∈ (signal_ct df).columns)
  let remaining := (signal_ct df).columns.filter (fun x => x ∉ existing)
  existing ++ sortAsc remaining

/-- Embedding of the state-signal matrix block (lines 129-153): crosstab
of state against the bucketed signal strength; the columns are reordered
to the preferred labels that actually occur followed by the remaining
observed labels sorted; on missing columns a fixed diagnostic message is
attached. -/
def signal_matrix (df : DataFrame) : MatrixOut :=
  if "state" ∈ df.cols ∧ "signal_strength" ∈ df.cols then
    emitMatrix (signal_ct df) (signal_cols df)
  else
    { states := [], labels := [], matrix := []
      error := some "Required columns \x27state\x27 and \x27signal_strength\x27 not found in dataset." }

/-- Sum of every count appearing in an emitted matrix. -/
def matrixSum (M : MatrixOut) : ℕ :=
  (M.matrix.map (fun p => p.2.sum)).sum

/-- Embedding of `df[c].value_counts(dropna=False).to_dict()`: one entry
per distinct cell value (missing included) with its multiplicity. -/
def value_counts_raw (f : Row → Cell) (rows : List Row) : List (Cell × ℕ) :=
  let cs := rows.map f
  cs.dedup.map (fun c => (c, cs.count c))

/-- Python `dict.get(k, 0)`. -/
def dictGet (d : List (Cell × ℕ)) (k : Cell) : ℕ :=
  match d.find? (fun p => p.1 = k) with
  | some p => p.2
  | none => 0

/-- The raw status counts of lines 56-59: empty dict when the column is
absent, else the raw (pre-normalization) value counts. -/
def status_counts_raw (df : DataFrame) : List (Cell × ℕ) :=
  if "status" ∈ df.cols then value_counts_raw (fun r => r.status) df.rows else []

/-- `_get_status_count` (lines 58-59). -/
def get_status_count (df : DataFrame) (key : String) : ℕ :=
  dictGet (status_counts_raw df) (Cell.str key)

/-- The `summary` dict (lines 66-73). -/
structure Summary where
  total_complaints : ℕ
  total_states : ℕ
  total_districts : ℕ
  total_submitted : ℕ
  total_in_progress : ℕ
  total_resolved : ℕ
deriving DecidableEq, Repr

/-- `df[c].nunique()`: the number of distinct non-missing values. -/
def nunique (f : Row → Cell) (df : DataFrame) : ℕ :=
  (keysOf f df).dedup.length

/-- Embedding of the summary block (lines 56-73). -/
def summary (df : DataFrame) : Summary :=
  { total_complaints := df.rows.length
    total_states := if "state" ∈ df.cols then nunique (fun r => r.state) df else 0
    total_districts := if "district" ∈ df.cols then nunique (fun r => r.district) df else 0
    total_submitted := get_status_count df "Submitted"
    total_in_progress := get_status_count df "In Progress"
    total_resolved := get_status_count df "Resolved" }

/-- Embedding of `df[c].value_counts().to_dict()` (missing values
dropped): distinct observed values sorted by descending multiplicity,
each with its count. -/
def value_counts (f : Row → Cell) (df : DataFrame) : List (String × ℕ) :=
  let ks := keysOf f df
  (sortDescBy (fun s => ks.count s) ks.dedup).map (fun s => (s, ks.count s))

/-- The `state` frequency mapping (line 76). -/
def state_counts (df : DataFrame) : List (String × ℕ) :=
  if "state" ∈ df.cols then value_counts (fun r => r.state) df else []

/-- The `district` frequency mapping (line 77). -/
def district_counts (df : DataFrame) : List (String × ℕ) :=
  if "district" ∈ df.cols then value_counts (fun r => r.district) df else []

/-- The `issue` frequency mapping (line 78). -/
def issue_counts (df : DataFrame) : List (String × ℕ) :=
  if "issue_type" ∈ df.cols then value_counts (fun r => r.issue_type) df else []

/-- The number of rows of state `s` whose normalized status lands in one
of the three kept status columns: the sorting total the code actually
uses for the status matrix (computed after `ct = ct[status_order]`). -/
def statusKeptTotal (df : DataFrame) (s : String) : ℕ :=
  df.rows.countP (fun r => decide (cellKey r.state = some s)
    && decide (norm_status r.status ∈ status_order))

/-- The number of rows of state `s` with a non-missing state: the row
total the status crosstab would have before the extra normalized-status
columns are dropped (the normalized status is never missing). -/
def statusAllTotal (df : DataFrame) (s : String) : ℕ :=
  df.rows.countP (fun r => decide (cellKey r.state = some s))

/-- The bucketed signal labels of the rows with a non-missing state, in
row order: the column keys the signal crosstab counts. -/
def observed_signals (df : DataFrame) : List String :=
  (df.rows.filter (fun r => (cellKey r.state).isSome)).map
    (fun r => bucket_signal_strength r.signal_strength)

/-- The three-row scenario dataset of the spec (section 8). -/
def sampleDf : DataFrame :=
  { cols := ["state", "district", "issue_type", "status", "signal_strength",
             "reported_date"]
    rows :=
      [{ state := Cell.str "Selangor", status := Cell.str "Submitted"
         signal_strength := Cell.num 0 },
       { state := Cell.str "Selangor", status := Cell.str "Resolved"
         signal_strength := Cell.num 4 },
       { state := Cell.str "Johor", status := Cell.str "In Progress"
         signal_strength := Cell.num 2 }] }

/-- A dataset with one parseable date, one unparseable date, and one
missing date. -/
def dateDf : DataFrame :=
  { cols := ["reported_date"]
    rows :=
      [{ reported_date := Cell.str "2024-03-05" },
       { reported_date := Cell.str "notadate" },
       { reported_date := Cell.null }] }

/-- A dataset whose single row has a status string outside the recognized
set. -/
def weirdDf : DataFrame :=
  { cols := ["state", "status"]
    rows := [{ state := Cell.str "A", status := Cell.str "Weird" }] }

/-- A dataset whose single signal value buckets to `Weak`, so the other
three preferred labels never occur. -/
def weakDf : DataFrame :=
  { cols := ["state", "signal_strength"]
    rows := [{ state := Cell.str "A", signal_strength := Cell.num 1 }] }

/-- A dataset where state `A` has more rows than state `B`, but fewer rows
whose status lands in a kept status column. -/
def tieDf : DataFrame :=
  { cols := ["state", "status"]
    rows :=
      [{ state := Cell.str "A", status := Cell.str "Weird" },
       { state := Cell.str "A", status := Cell.str "Weird" },
       { state := Cell.str "A", status := Cell.str "Submitted" },
       { state := Cell.str "B", status := Cell.str "Submitted" },
       { state := Cell.str "B", status := Cell.str "Submitted" }] }

/-- A dataset that has a `state` column (with one missing value) but no
`signal_strength` column. -/
def stateOnlyDf : DataFrame :=
  { cols := ["state"], rows := [{ state := Cell.null }] }

/-- A dataset that has a `signal_strength` column but no `state` column. -/
def signalOnlyDf : DataFrame :=
  { cols := ["signal_strength"]
    rows := [{ signal_strength := Cell.num 2 }] }


/-! ### General lemmas about the insertion sorts -/

/-- Inserting descending is a permutation of consing. -/
theorem insertDesc_perm {α : Type} (key : α → ℕ) (x : α) (l : List α) :
    List.Perm (insertDesc key x l) (x :: l) := by
  induction l with
  | nil => exact List.Perm.refl _
  | cons y ys ih =>
    by_cases h : key y < key x
    · simp only [insertDesc, if_pos h]
      exact List.Perm.refl _
    · simp only [insertDesc, if_neg h]
      exact (ih.cons y).trans (List.Perm.swap x y ys)

/-- The descending sort permutes its input (with an accumulator). -/
theorem sortDescBy_perm_aux {α : Type} (key : α → ℕ) (l acc : List α) :
    List.Perm (l.foldl (fun acc x => insertDesc key x acc) acc) (acc ++ l) := by
  induction l generalizing acc with
  | nil => simp
  | cons x xs ih =>
    simp only [List.foldl_cons]
    exact ((ih (insertDesc key x acc)).trans
      (((insertDesc_perm key x acc).append_right xs).trans
        List.perm_middle.symm))

/-- The descending sort permutes its input. -/
theorem sortDescBy_perm {α : Type} (key : α → ℕ) (l : List α) :
    List.Perm (sortDescBy key l) l := by
  simpa using sortDescBy_perm_aux key l []

/-- Inserting descending preserves descending sortedness. -/
theorem insertDesc_pairwise {α : Type} (key : α → ℕ) (x : α) {l : List α}
    (h : l.Pairwise (fun a b => key b ≤ key a)) :
    (insertDesc key x l).Pairwise (fun a b => key b ≤ key a) := by
  induction l with
  | nil => simp [insertDesc]
  | cons y ys ih =>
    rw [List.pairwise_cons] at h
    obtain ⟨hy, hys⟩ := h
    by_cases hxy : key y < key x
    · simp only [insertDesc, if_pos hxy]
      refine List.Pairwise.cons ?_ (List.Pairwise.cons hy hys)
      intro z hz
      rcases List.mem_cons.mp hz with hz | hz
      · exact hz ▸ le_of_lt hxy
      · exact le_trans (hy z hz) (le_of_lt hxy)
    · simp only [insertDesc, if_neg hxy]
      refine List.Pairwise.cons ?_ (ih hys)
      intro z hz
      rcases List.mem_cons.mp ((insertDesc_perm key x ys).mem_iff.mp hz)
        with hz | hz
      · exact hz ▸ le_of_not_lt hxy
      · exact hy z hz

/-- The descending sort is descending (with an accumulator). -/
theorem sortDescBy_pairwise_aux {α : Type} (key : α → ℕ) (l : List α)
    {acc : List α} (hacc : acc.Pairwise (fun a b => key b ≤ key a)) :
    (l.foldl (fun acc x => insertDesc key x acc) acc).Pairwise
      (fun a b => key b ≤ key a) := by
  induction l generalizing acc with
  | nil => exact hacc
  | cons x xs ih => exact ih (insertDesc_pairwise key x hacc)

/-- The descending sort is descending on the key. -/
theorem sortDescBy_pairwise {α : Type} (key : α → ℕ) (l : List α) :
    (sortDescBy key l).Pairwise (fun a b => key b ≤ key a) :=
  sortDescBy_pairwise_aux key l List.Pairwise.nil

/-- Inserting ascending is a permutation of consing. -/
theorem insertAsc_perm (x : String) (l : List String) :
    List.Perm (insertAsc x l) (x :: l) := by
  induction l with
  | nil => exact List.Perm.refl _
  | cons y ys ih =>
    by_cases h : strLt x y = true
    · simp only [insertAsc, if_pos h]
      exact List.Perm.refl _
    · simp only [insertAsc, if_neg h]
      exact (ih.cons y).trans (List.Perm.swap x y ys)

/-- The ascending sort permutes its input (with an accumulator). -/
theorem sortAsc_perm_aux (l acc : List String) :
    List.Perm (l.foldl (fun acc x => insertAsc x acc) acc) (acc ++ l) := by
  induction l generalizing acc with
  | nil => simp
  | cons x xs ih =>
    simp only [List.foldl_cons]
    exact ((ih (insertAsc x acc)).trans
      (((insertAsc_perm x acc).append_right xs).trans List.perm_middle.symm))

/-- The ascending sort permutes its input. -/
theorem sortAsc_perm (l : List String) : List.Perm (sortAsc l) l := by
  simpa using sortAsc_perm_aux l []

/-- Membership is preserved by the ascending sort. -/
theorem mem_sortAsc {x : String} {l : List String} :
    x ∈ sortAsc l ↔ x ∈ l :=
  (sortAsc_perm l).mem_iff

/-- Asymmetry of the lexicographic comparison. -/
theorem charListLt_asymm : ∀ {as bs : List Char},
    charListLt as bs = true → charListLt bs as = false := by
  intro as
  induction as with
  | nil =>
    intro bs h
    cases bs with
    | nil => simp [charListLt] at h
    | cons b bs => simp [charListLt]
  | cons a as ih =>
    intro bs h
    cases bs with
    | nil => simp [charListLt] at h
    | cons b bs =>
      simp only [charListLt] at h ⊢
      by_cases h1 : a.toNat < b.toNat
      · rw [if_neg (by omega), if_pos h1]
      · rw [if_neg h1] at h
        by_cases h2 : b.toNat < a.toNat
        · rw [if_pos h2] at h
          exact absurd h (by simp)
        · rw [if_neg h2] at h
          rw [if_neg h2, if_neg h1]
          exact ih h

/-- Transitivity of the lexicographic comparison. -/
theorem charListLt_trans : ∀ {as bs cs : List Char},
    charListLt as bs = true → charListLt bs cs = true →
    charListLt as cs = true := by
  intro as
  induction as with
  | nil =>
    intro bs cs h1 h2
    cases bs with
    | nil => simp [charListLt] at h1
    | cons b bs =>
      cases cs with
      | nil => simp [charListLt] at h2
      | cons c cs => simp [charListLt]
  | cons a as ih =>
    intro bs cs h1 h2
    cases bs with
    | nil => simp [charListLt] at h1
    | cons b bs =>
      cases cs with
      | nil => simp [charListLt] at h2
      | cons c cs =>
        simp only [charListLt] at h1 h2 ⊢
        by_cases hab : a.toNat < b.toNat
        · by_cases hbc : b.toNat < c.toNat
          · rw [if_pos (by omega)]
          · rw [if_neg hbc] at h2
            by_cases hcb : c.toNat < b.toNat
            · simp [hcb] at h2
            · rw [if_pos (by omega)]
        · rw [if_neg hab] at h1
          by_cases hba : b.toNat < a.toNat
          · simp [hba] at h1
          · rw [if_neg hba] at h1
            by_cases hbc : b.toNat < c.toNat
            · rw [if_pos (by omega)]
            · rw [if_neg hbc] at h2
              by_cases hcb : c.toNat < b.toNat
              · simp [hcb] at h2
              · rw [if_neg hcb] at h2
                rw [if_neg (by omega), if_neg (by omega)]
                exact ih h1 h2

/-- Inserting ascending preserves ascending sortedness (where `a` comes
before `b` exactly when `b` is not strictly smaller). -/
theorem insertAsc_pairwise (x : String) {l : List String}
    (h : l.Pairwise (fun a b => strLt b a = false)) :
    (insertAsc x l).Pairwise (fun a b => strLt b a = false) := by
  induction l with
  | nil => simp [insertAsc]
  | cons y ys ih =>
    rw [List.pairwise_cons] at h
    obtain ⟨hy, hys⟩ := h
    by_cases hxy : strLt x y = true
    · simp only [insertAsc, if_pos hxy]
      refine List.Pairwise.cons ?_ (List.Pairwise.cons hy hys)
      intro z hz
      rcases List.mem_cons.mp hz with hz | hz
      · exact hz ▸ charListLt_asymm hxy
      · cases hzx : strLt z x with
        | false => rfl
        | true =>
          have : strLt z y = true := charListLt_trans hzx hxy
          rw [hy z hz] at this
          exact absurd this (by simp)
    · simp only [insertAsc, if_neg hxy]
      refine List.Pairwise.cons ?_ (ih hys)
      intro z hz
      rcases List.mem_cons.mp ((insertAsc_perm x ys).mem_iff.mp hz)
        with hz | hz
      · rw [hz]
        simpa using hxy
      · exact hy z hz

/-- The ascending sort is ascending (with an accumulator). -/
theorem sortAsc_pairwise_aux (l : List String) {acc : List String}
    (hacc : acc.Pairwise (fun a b => strLt b a = false)) :
    (l.foldl (fun acc x => insertAsc x acc) acc).Pairwise
      (fun a b => strLt b a = false) := by
  induction l generalizing acc with
  | nil => exact hacc
  | cons x xs ih => exact ih (insertAsc_pairwise x hacc)

/-- The ascending sort is sorted: no later element is lexicographically
smaller than an earlier one. -/
theorem sortAsc_pairwise (l : List String) :
    (sortAsc l).Pairwise (fun a b => strLt b a = false) :=
  sortAsc_pairwise_aux l List.Pairwise.nil

/-! ### Counting lemmas -/

/-- Splitting a membership count over a fresh head key isolates the
count of that key. -/
theorem countP_mem_cons {α : Type} [DecidableEq α] (k : α) (K l : List α)
    (hk : k ∉ K) :
    l.countP (fun a => decide (a ∈ k :: K))
      = l.countP (fun a => decide (a = k))
        + l.countP (fun a => decide (a ∈ K)) := by
  induction l with
  | nil => simp
  | cons a l ih =>
    simp only [List.countP_cons]
    rw [ih]
    by_cases hak : a = k
    · simp [hak, hk]
      omega
    · by_cases haK : a ∈ K
      · simp [hak, haK]
        omega
      · simp [hak, haK]

/-- Summing the multiplicities of distinct keys counts the elements that
are one of those keys. -/
theorem sum_countP_nodup {α : Type} [DecidableEq α] (K l : List α)
    (hK : K.Nodup) :
    (K.map (fun k => l.countP (fun a => decide (a = k)))).sum
      = l.countP (fun a => decide (a ∈ K)) := by
  induction K with
  | nil => simp
  | cons k K ih =>
    rw [List.nodup_cons] at hK
    obtain ⟨hk, hK⟩ := hK
    simp only [List.map_cons, List.sum_cons]
    rw [ih hK, countP_mem_cons k K l hk]

/-- Membership in a one-column pairing. -/
theorem mem_map_pair {S : List String} {c : String} {p : String × String} :
    p ∈ S.map (fun s => (s, c)) ↔ p.1 ∈ S ∧ p.2 = c := by
  rcases p with ⟨a, b⟩
  simp only [List.mem_map, Prod.mk.injEq]
  constructor
  · rintro ⟨s, hs, rfl, rfl⟩
    exact ⟨hs, rfl⟩
  · rintro ⟨ha, rfl⟩
    exact ⟨a, ha, rfl, rfl⟩

/-- Splitting a conjunctive membership count over a fresh head column. -/
theorem countP_and_mem_cons (A : String × String → Bool) (c : String)
    (C : List String) (ps : List (String × String)) (hc : c ∉ C) :
    ps.countP (fun p => A p && decide (p.2 ∈ c :: C))
      = ps.countP (fun p => A p && decide (p.2 = c))
        + ps.countP (fun p => A p && decide (p.2 ∈ C)) := by
  induction ps with
  | nil => simp
  | cons p ps ih =>
    simp only [List.countP_cons]
    rw [ih]
    by_cases hA : A p = true
    · by_cases hpc : p.2 = c
      · simp [hA, hpc, hc]
        omega
      · by_cases hpC : p.2 ∈ C
        · simp [hA, hpc, hpC]
          omega
        · simp [hA, hpc, hpC]
    · rw [Bool.not_eq_true] at hA
      simp [hA]

/-- The grand total over distinct row keys `S` and distinct column keys
`C` counts the pairs landing in `S × C`. -/
theorem sum_countP_prod (S C : List String) (ps : List (String × String))
    (hS : S.Nodup) (hC : C.Nodup) :
    (C.map (fun c =>
        (S.map (fun s => ps.countP (fun p => decide (p = (s, c))))).sum)).sum
      = ps.countP (fun p => decide (p.1 ∈ S) && decide (p.2 ∈ C)) := by
  induction C with
  | nil => simp
  | cons c C ih =>
    rw [List.nodup_cons] at hC
    obtain ⟨hc, hC⟩ := hC
    simp only [List.map_cons, List.sum_cons]
    rw [ih hC, countP_and_mem_cons (fun p => decide (p.1 ∈ S)) c C ps hc]
    congr 1
    have hK : (S.map (fun s => (s, c))).Nodup :=
      hS.map (fun a b h => congrArg Prod.fst h)
    have h1 := sum_countP_nodup (α := String × String)
      (S.map (fun s => (s, c))) ps hK
    simp only [List.map_map, Function.comp_def] at h1
    rw [h1]
    apply List.countP_congr
    intro p _
    have hmp : (p ∈ S.map fun s => (s, c)) ↔ (p.1 ∈ S ∧ p.2 = c) :=
      mem_map_pair
    by_cases hp1 : p.1 ∈ S
    · by_cases hp2 : p.2 = c
      · simp [hmp, hp1, hp2]
      · simp [hmp, hp1, hp2]
    · simp [hmp, hp1]

/-! ### Crosstab lemmas -/

/-- A crosstab's row index has no duplicates. -/
theorem crosstab_index_nodup (rk ck : Row → Option String)
    (rows : List Row) : (crosstab rk ck rows).index.Nodup := by
  unfold crosstab
  exact ((sortAsc_perm _).nodup_iff).mpr (List.nodup_dedup _)

/-- A crosstab's column index has no duplicates. -/
theorem crosstab_columns_nodup (rk ck : Row → Option String)
    (rows : List Row) : (crosstab rk ck rows).columns.Nodup := by
  unfold crosstab
  exact ((sortAsc_perm _).nodup_iff).mpr (List.nodup_dedup _)

/-- Every counted pair's row key is in the crosstab's index. -/
theorem fst_mem_index {rk ck : Row → Option String} {rows : List Row}
    {p : String × String} (hp : p ∈ (crosstab rk ck rows).pairs) :
    p.1 ∈ (crosstab rk ck rows).index := by
  unfold crosstab at hp ⊢
  exact mem_sortAsc.mpr (List.mem_dedup.mpr (List.mem_map_of_mem Prod.fst hp))

/-- Every counted pair's column key is in the crosstab's columns. -/
theorem snd_mem_columns {rk ck : Row → Option String} {rows : List Row}
    {p : String × String} (hp : p ∈ (crosstab rk ck rows).pairs) :
    p.2 ∈ (crosstab rk ck rows).columns := by
  unfold crosstab at hp ⊢
  exact mem_sortAsc.mpr (List.mem_dedup.mpr (List.mem_map_of_mem Prod.snd hp))

/-- A crosstab cell count, as a `countP`. -/
theorem ctCount_eq_countP (ct : Crosstab) (s c : String) :
    ctCount ct s c = ct.pairs.countP (fun p => decide (p = (s, c))) := by
  show ct.pairs.countP (fun p => p == (s, c)) = _
  apply List.countP_congr
  intro p _
  by_cases h : p = (s, c) <;> simp [h]

/-- The grand total of an emitted matrix counts the crosstab pairs whose
row key is in the index and whose column key is among the selected
columns. -/
theorem matrixSum_emit (ct : Crosstab) (cols : List String)
    (hI : ct.index.Nodup) (hC : cols.Nodup) :
    matrixSum (emitMatrix ct cols)
      = ct.pairs.countP
          (fun p => decide (p.1 ∈ ct.index) && decide (p.2 ∈ cols)) := by
  unfold matrixSum emitMatrix
  simp only [List.map_map, Function.comp_def]
  have hstep : (cols.map (fun c =>
        ((sortDescBy (rowTotal ct cols) ct.index).map
          (fun s => ctCount ct s c)).sum)).sum
      = (cols.map (fun c => (ct.index.map
          (fun s => ct.pairs.countP (fun p => decide (p = (s, c))))).sum)).sum := by
    apply congrArg List.sum
    apply List.map_congr_left
    intro c _
    rw [((sortDescBy_perm (rowTotal ct cols) ct.index).map
      (fun s => ctCount ct s c)).sum_eq]
    apply congrArg List.sum
    apply List.map_congr_left
    intro s _
    exact ctCount_eq_countP ct s c
  exact hstep.trans (sum_countP_prod ct.index cols ct.pairs hI hC)

/-- A per-row total over distinct columns counts the pairs in that row
landing in one of the columns. -/
theorem rowTotal_countP (ct : Crosstab) (cols : List String) (s : String)
    (hC : cols.Nodup) :
    rowTotal ct cols s
      = ct.pairs.countP
          (fun p => decide (p.1 = s) && decide (p.2 ∈ cols)) := by
  induction cols with
  | nil => simp [rowTotal]
  | cons c C ih =>
    rw [List.nodup_cons] at hC
    obtain ⟨hc, hC⟩ := hC
    simp only [rowTotal, List.map_cons, List.sum_cons]
    rw [countP_and_mem_cons (fun p => decide (p.1 = s)) c C ct.pairs hc]
    have h2 : (C.map (fun c => ctCount ct s c)).sum
        = ct.pairs.countP (fun p => decide (p.1 = s) && decide (p.2 ∈ C)) := by
      simpa [rowTotal] using ih hC
    rw [h2, ctCount_eq_countP]
    congr 1
    apply List.countP_congr
    intro p _
    by_cases h1 : p.1 = s
    · by_cases hp2 : p.2 = c
      · simp [Prod.ext_iff, h1, hp2]
      · simp [Prod.ext_iff, h1, hp2]
    · simp [Prod.ext_iff, h1]

/-- Counting pairs of a crosstab whose column series is total (never
missing) is counting rows. -/
theorem countP_crosstab_pairs_some (rk : Row → Option String)
    (g : Row → String) (Q : String × String → Bool) (rows : List Row) :
    (crosstab_pairs rk (fun r => some (g r)) rows).countP Q
      = rows.countP (fun r =>
          match rk r with
          | some a => Q (a, g r)
          | none => false) := by
  induction rows with
  | nil => rfl
  | cons r rows ih =>
    simp only [crosstab_pairs] at ih ⊢
    cases hr : rk r <;>
      simp [List.filterMap_cons, hr, List.countP_cons, ih]

/-- The number of pairs a crosstab counts is the number of rows with both
keys present. -/
theorem length_crosstab_pairs (rk ck : Row → Option String)
    (rows : List Row) :
    (crosstab_pairs rk ck rows).length
      = rows.countP (fun r => (rk r).isSome && (ck r).isSome) := by
  induction rows with
  | nil => rfl
  | cons r rows ih =>
    simp only [crosstab_pairs] at ih ⊢
    cases hr : rk r <;> cases hc : ck r <;>
      simp [List.filterMap_cons, hr, hc, List.countP_cons, ih]

/-- The column keys a total-column crosstab counts, in row order. -/
theorem map_snd_crosstab_pairs (rk : Row → Option String) (g : Row → String)
    (rows : List Row) :
    (crosstab_pairs rk (fun r => some (g r)) rows).map Prod.snd
      = (rows.filter (fun r => (rk r).isSome)).map g := by
  induction rows with
  | nil => rfl
  | cons r rows ih =>
    simp only [crosstab_pairs] at ih ⊢
    cases hr : rk r <;>
      simp [List.filterMap_cons, hr, List.filter_cons, ih]

/-- A column membership test covering all observed columns is vacuous. -/
theorem countP_pairs_columns_true (rk ck : Row → Option String)
    (rows : List Row) (C : List String)
    (hcov : ∀ x ∈ (crosstab rk ck rows).columns, x ∈ C) :
    (crosstab rk ck rows).pairs.countP (fun p => decide (p.2 ∈ C))
      = (crosstab rk ck rows).pairs.length := by
  apply List.countP_eq_length.mpr
  intro q hq
  simp [hcov q.2 (snd_mem_columns hq)]

/-- The length of a `filterMap` counts the inputs mapped to `some`. -/
theorem length_filterMap_eq_countP {α β : Type} (f : α → Option β)
    (l : List α) :
    (l.filterMap f).length = l.countP (fun a => (f a).isSome) := by
  induction l with
  | nil => rfl
  | cons a l ih =>
    cases h : f a <;> simp [List.filterMap_cons, h, List.countP_cons, ih]

/-- `find?` over a key-indexed map: the first hit is the key's entry. -/
theorem find_map_pair_cell (g : Cell → ℕ) (kd : List Cell) (k : Cell) :
    (kd.map (fun c => (c, g c))).find? (fun p => p.1 = k)
      = if k ∈ kd then some (k, g k) else none := by
  induction kd with
  | nil => rfl
  | cons c kd ih =>
    by_cases hck : c = k
    · subst hck
      simp [List.find?_cons_of_pos]
    · have hkc : ¬ k = c := fun h => hck h.symm
      simp only [List.map_cons, List.find?_cons]
      rw [decide_eq_false hck]
      simp only [ih]
      simp [List.mem_cons, hkc]

/-- Looking a key up in raw value-counts yields its multiplicity. -/
theorem dictGet_value_counts_raw (f : Row → Cell) (rows : List Row)
    (k : Cell) :
    dictGet (value_counts_raw f rows) k = (rows.map f).count k := by
  show dictGet ((rows.map f).dedup.map
    (fun c => (c, (rows.map f).count c))) k = _
  unfold dictGet
  rw [find_map_pair_cell (fun c => (rows.map f).count c) (rows.map f).dedup k]
  by_cases h : k ∈ (rows.map f).dedup
  · simp [h]
  · simp only [h, if_false]
    exact (List.count_eq_zero.mpr (fun hk => h (List.mem_dedup.mpr hk))).symm

/-- A multiplicity in a mapped column is a row count. -/
theorem count_map_eq_countP (f : Row → Cell) (rows : List Row) (k : Cell) :
    (rows.map f).count k = rows.countP (fun r => decide (f r = k)) := by
  induction rows with
  | nil => rfl
  | cons r rows ih =>
    by_cases h : f r = k <;>
      simp [List.count_cons, h, List.countP_cons, ih]

/-- Every parsed month prints, strips and title-cases to its own month
name, which is in the fixed month list. -/
theorem month_label_mem (i : Fin 12) :
    str_title (py_strip (month_astype_str (some i))) = month_astype_str (some i)
    ∧ month_astype_str (some i) ∈ MONTH_ORDER := by
  revert i
  decide

/-- A NaT entry prints, strips and title-cases to `"Nan"`, which is not a
month name. -/
theorem month_label_nan :
    str_title (py_strip (month_astype_str none)) = "Nan"
    ∧ "Nan" ∉ MONTH_ORDER := by
  decide

/-- The month list has no duplicates. -/
theorem MONTH_ORDER_nodup : MONTH_ORDER.Nodup := by decide

/-- A string multiplicity as a `countP`. -/
theorem count_eq_countP_str (l : List String) (s : String) :
    l.count s = l.countP (fun a => decide (a = s)) := by
  show l.countP (fun a => a == s) = _
  apply List.countP_congr
  intro a _
  by_cases h : a = s <;> simp [h]

/-- The values of a frequency mapping sum to the number of non-missing
entries of the column. -/
theorem value_counts_sum (f : Row → Cell) (df : DataFrame) :
    ((value_counts f df).map Prod.snd).sum
      = df.rows.countP (fun r => (cellKey (f r)).isSome) := by
  unfold value_counts
  rw [List.map_map]
  simp only [Function.comp_def]
  have hstep : ((sortDescBy (fun s => (keysOf f df).count s)
        (keysOf f df).dedup).map (fun s => (keysOf f df).count s)).sum
      = (keysOf f df).length := by
    have hnd : (sortDescBy (fun s => (keysOf f df).count s)
        (keysOf f df).dedup).Nodup :=
      ((sortDescBy_perm _ _).nodup_iff).mpr (List.nodup_dedup _)
    have h1 : ((sortDescBy (fun s => (keysOf f df).count s)
          (keysOf f df).dedup).map (fun s => (keysOf f df).count s)).sum
        = (keysOf f df).countP (fun a => decide (a ∈ sortDescBy
            (fun s => (keysOf f df).count s) (keysOf f df).dedup)) := by
      rw [← sum_countP_nodup _ _ hnd]
      apply congrArg List.sum
      apply List.map_congr_left
      intro s _
      exact count_eq_countP_str _ s
    rw [h1]
    apply List.countP_eq_length.mpr
    intro a ha
    simp [(sortDescBy_perm _ _).mem_iff.mpr (List.mem_dedup.mpr ha)]
  rw [hstep]
  exact length_filterMap_eq_countP _ _

/-! ### Claims -/

/-- Claim C4: the status normalizer is a pure total function that maps
`Submitted` to `Open`, `In Progress` to `In Progress`, `Resolved` to
`Closed`, a missing value to the literal label `Other`, and any other
string to its original trimmed form unchanged; it has no error case
(totality is inherent in the Lean function type). -/
theorem c4_norm_status (s : String)
    (h : py_strip s ∉ (["Submitted", "In Progress", "Resolved"] : List String)) :
    norm_status (Cell.str "Submitted") = "Open"
    ∧ norm_status (Cell.str "In Progress") = "In Progress"
    ∧ norm_status (Cell.str "Resolved") = "Closed"
    ∧ norm_status Cell.null = "Other"
    ∧ norm_status (Cell.str s) = py_strip s := by
  obtain ⟨h1, h2, h3⟩ : py_strip s ≠ "Submitted" ∧ py_strip s ≠ "In Progress"
      ∧ py_strip s ≠ "Resolved" := by simpa using h
  refine ⟨by decide, by decide, by decide, rfl, ?_⟩
  show (if py_strip s = "Submitted" then "Open"
    else if py_strip s = "In Progress" then "In Progress"
    else if py_strip s = "Resolved" then "Closed"
    else py_strip s) = py_strip s
  rw [if_neg h1, if_neg h2, if_neg h3]

/-- Claim C4 witness: an unrecognized status string passes through
trimmed. -/
theorem c4_norm_status_witness :
    py_strip " Weird " ∉ (["Submitted", "In Progress", "Resolved"] : List String)
    ∧ norm_status (Cell.str " Weird ") = py_strip " Weird " :=
  ⟨by decide, (c4_norm_status " Weird " (by decide)).2.2.2.2⟩

/-- Claim C5: the signal-strength bucketizer coerces non-numeric and
missing values to 0 and then maps by ordered thresholds: at most 0 to
`No Signal`, more than 0 and at most 2 to `Weak`, more than 2 and at most
3 to `Moderate`, and more than 3 to `Strong`; in particular 0 maps to
`No Signal`, 1.5 to `Weak`, 2 to `Weak`, 3 to `Moderate`, 3.5 to
`Strong`, and the non-numeric string `abc` to `No Signal`. -/
theorem c5_bucket_signal (c : Cell) :
    ((to_numeric_coerce c).getD 0 ≤ 0 →
      bucket_signal_strength c = "No Signal")
    ∧ (0 < (to_numeric_coerce c).getD 0 → (to_numeric_coerce c).getD 0 ≤ 2 →
        bucket_signal_strength c = "Weak")
    ∧ (2 < (to_numeric_coerce c).getD 0 → (to_numeric_coerce c).getD 0 ≤ 3 →
        bucket_signal_strength c = "Moderate")
    ∧ (3 < (to_numeric_coerce c).getD 0 →
        bucket_signal_strength c = "Strong")
    ∧ (∀ q : ℚ, to_numeric_coerce (Cell.num q) = some q)
    ∧ to_numeric_coerce (Cell.str "abc") = none
    ∧ to_numeric_coerce Cell.null = none
    ∧ bucket_signal_strength (Cell.num 0) = "No Signal"
    ∧ bucket_signal_strength (Cell.num (3/2)) = "Weak"
    ∧ bucket_signal_strength (Cell.num 2) = "Weak"
    ∧ bucket_signal_strength (Cell.num 3) = "Moderate"
    ∧ bucket_signal_strength (Cell.num (7/2)) = "Strong"
    ∧ bucket_signal_strength (Cell.str "abc") = "No Signal" := by
  refine ⟨?_, ?_, ?_, ?_, fun q => rfl, rfl, rfl, by decide,
    by norm_num [bucket_signal_strength, bucket_label, to_numeric_coerce],
    by decide, by decide,
    by norm_num [bucket_signal_strength, bucket_label, to_numeric_coerce],
    by decide⟩
  · intro h
    unfold bucket_signal_strength bucket_label
    rw [if_pos h]
  · intro h1 h2
    unfold bucket_signal_strength bucket_label
    rw [if_neg (by linarith), if_pos h2]
  · intro h1 h2
    unfold bucket_signal_strength bucket_label
    rw [if_neg (by linarith), if_neg (by linarith), if_pos h2]
  · intro h
    unfold bucket_signal_strength bucket_label
    rw [if_neg (by linarith), if_neg (by linarith), if_neg (by linarith)]

/-- Claim C5 witness: a value above the top threshold buckets to
`Strong`. -/
theorem c5_bucket_signal_witness :
    (3 : ℚ) < (to_numeric_coerce (Cell.num 4)).getD 0
    ∧ bucket_signal_strength (Cell.num 4) = "Strong" :=
  ⟨by decide, (c5_bucket_signal (Cell.num 4)).2.2.2.1 (by decide)⟩

/-- Claim C7: the three summary totals look up the exact raw
pre-normalization strings `Submitted`, `In Progress`, `Resolved` in the
raw status value counts (not via the status normalizer), so a row with
any other status string contributes to none of them; with no `status`
column all three are 0. -/
theorem c7_summary_raw_status (df : DataFrame) :
    ("status" ∈ df.cols →
      (summary df).total_submitted
          = df.rows.countP (fun r => decide (r.status = Cell.str "Submitted"))
      ∧ (summary df).total_in_progress
          = df.rows.countP (fun r => decide (r.status = Cell.str "In Progress"))
      ∧ (summary df).total_resolved
          = df.rows.countP (fun r => decide (r.status = Cell.str "Resolved")))
    ∧ ("status" ∉ df.cols →
      (summary df).total_submitted = 0
      ∧ (summary df).total_in_progress = 0
      ∧ (summary df).total_resolved = 0) := by
  constructor
  · intro hmem
    have h : ∀ key : String, get_status_count df key
        = df.rows.countP (fun r => decide (r.status = Cell.str key)) := by
      intro key
      unfold get_status_count status_counts_raw
      rw [if_pos hmem, dictGet_value_counts_raw, count_map_eq_countP]
    exact ⟨h "Submitted", h "In Progress", h "Resolved"⟩
  · intro hmem
    have h : ∀ key : String, get_status_count df key = 0 := by
      intro key
      unfold get_status_count status_counts_raw
      rw [if_neg hmem]
      rfl
    exact ⟨h "Submitted", h "In Progress", h "Resolved"⟩

/-- Claim C7 witness: on the three-row scenario the totals count exact
raw strings. -/
theorem c7_summary_raw_status_witness :
    "status" ∈ sampleDf.cols
    ∧ (summary sampleDf).total_submitted
        = sampleDf.rows.countP (fun r => decide (r.status = Cell.str "Submitted")) :=
  ⟨by decide, ((c7_summary_raw_status sampleDf).1 (by decide)).1⟩

/-- Claim C10: `total_states` and `total_districts` count distinct
non-missing values, the frequency mappings count only rows with a
non-missing value in their column (hence sum to at most
`total_complaints`, which counts every row), and the sum can be strictly
smaller. -/
theorem c10_summary_counts (df : DataFrame) :
    (summary df).total_complaints = df.rows.length
    ∧ ("state" ∈ df.cols →
        (summary df).total_states
          = (keysOf (fun r => r.state) df).toFinset.card)
    ∧ ("district" ∈ df.cols →
        (summary df).total_districts
          = (keysOf (fun r => r.district) df).toFinset.card)
    ∧ ("state" ∈ df.cols →
        ((state_counts df).map Prod.snd).sum
          = df.rows.countP (fun r => (cellKey r.state).isSome))
    ∧ ("district" ∈ df.cols →
        ((district_counts df).map Prod.snd).sum
          = df.rows.countP (fun r => (cellKey r.district).isSome))
    ∧ ("issue_type" ∈ df.cols →
        ((issue_counts df).map Prod.snd).sum
          = df.rows.countP (fun r => (cellKey r.issue_type).isSome))
    ∧ ((state_counts df).map Prod.snd).sum ≤ (summary df).total_complaints
    ∧ ∃ df2 : DataFrame, "state" ∈ df2.cols
        ∧ ((state_counts df2).map Prod.snd).sum
            < (summary df2).total_complaints := by
  refine ⟨rfl, ?_, ?_, ?_, ?_, ?_, ?_, ⟨stateOnlyDf, by decide, by decide⟩⟩
  · intro hmem
    show (if "state" ∈ df.cols then nunique (fun r => r.state) df else 0) = _
    rw [if_pos hmem, List.card_toFinset]
    rfl
  · intro hmem
    show (if "district" ∈ df.cols then nunique (fun r => r.district) df else 0) = _
    rw [if_pos hmem, List.card_toFinset]
    rfl
  · intro hmem
    unfold state_counts
    rw [if_pos hmem, value_counts_sum]
  · intro hmem
    unfold district_counts
    rw [if_pos hmem, value_counts_sum]
  · intro hmem
    unfold issue_counts
    rw [if_pos hmem, value_counts_sum]
  · by_cases hmem : "state" ∈ df.cols
    · unfold state_counts
      rw [if_pos hmem, value_counts_sum]
      exact List.countP_le_length _
    · unfold state_counts
      rw [if_neg hmem]
      exact Nat.zero_le _

/-- Claim C10 witness: on the three-row scenario the state count is the
number of distinct non-missing states. -/
theorem c10_summary_counts_witness :
    "state" ∈ sampleDf.cols
    ∧ (summary sampleDf).total_states
        = (keysOf (fun r => r.state) sampleDf).toFinset.card :=
  ⟨by decide, (c10_summary_counts sampleDf).2.1 (by decide)⟩

/-- Claim C6: the `reported` mapping has exactly the twelve full English
month names as keys, its values sum to the number of rows whose
`reported_date` parses to a calendar date (unparseable dates counted
under no month), and with the `reported_date` column absent every one of
the twelve values is 0. -/
theorem c6_reported (df : DataFrame) :
    (reported df).map Prod.fst = MONTH_ORDER
    ∧ ("reported_date" ∈ df.cols →
        ((reported df).map Prod.snd).sum
          = df.rows.countP (fun r => (parse_month r.reported_date).isSome))
    ∧ ("reported_date" ∉ df.cols → ∀ p ∈ reported df, p.2 = 0) := by
  refine ⟨?_, ?_, ?_⟩
  · unfold reported
    by_cases hE : (derive_reported_month_series df).isEmpty
    · rw [if_pos hE, List.map_map]
      simp [Function.comp_def]
    · rw [if_neg hE, List.map_map]
      simp [Function.comp_def]
  · intro hmem
    have hmonths : derive_reported_month_series df
        = df.rows.map (fun r => parse_month r.reported_date) := by
      unfold derive_reported_month_series
      rw [if_pos hmem]
    by_cases hE : (derive_reported_month_series df).isEmpty
    · have hrows : df.rows = [] := by
        rw [hmonths] at hE
        simpa using hE
      unfold reported
      rw [if_pos hE, hrows]
      decide
    · unfold reported
      rw [if_neg hE, hmonths, List.map_map, List.map_map]
      simp only [Function.comp_def]
      rw [show (MONTH_ORDER.map (fun m =>
          (df.rows.map (fun r =>
            str_title (py_strip (month_astype_str
              (parse_month r.reported_date))))).count m)).sum
        = (df.rows.map (fun r =>
            str_title (py_strip (month_astype_str
              (parse_month r.reported_date))))).countP
              (fun a => decide (a ∈ MONTH_ORDER)) from by
        rw [← sum_countP_nodup MONTH_ORDER _ MONTH_ORDER_nodup]
        apply congrArg List.sum
        apply List.map_congr_left
        intro m _
        exact count_eq_countP_str _ m]
      rw [List.countP_map]
      apply List.countP_congr
      intro r _
      cases hp : parse_month r.reported_date with
      | none => simp [hp, month_label_nan.1, month_label_nan.2]
      | some i => simp [hp, (month_label_mem i).1, (month_label_mem i).2]
  · intro hmem
    have hE : (derive_reported_month_series df).isEmpty := by
      unfold derive_reported_month_series
      rw [if_neg hmem]
      rfl
    unfold reported
    rw [if_pos hE]
    intro p hp
    obtain ⟨m, _, rfl⟩ := List.mem_map.mp hp
    rfl

/-- Claim C6 witness: on a dataset with one parseable, one unparseable
and one missing date, the twelve values sum to 1. -/
theorem c6_reported_witness :
    "reported_date" ∈ dateDf.cols
    ∧ ((reported dateDf).map Prod.snd).sum
        = dateDf.rows.countP (fun r => (parse_month r.reported_date).isSome)
    ∧ dateDf.rows.countP (fun r => (parse_month r.reported_date).isSome) = 1 :=
  ⟨by decide, (c6_reported dateDf).2.1 (by decide), by decide⟩

/-- The pairs of the issue crosstab, unfolded. -/
theorem issue_ct_pairs (df : DataFrame) :
    (issue_ct df).pairs = crosstab_pairs (fun r => cellKey r.state)
      (fun r => cellKey r.issue_type) df.rows := rfl

/-- The pairs of the status crosstab, unfolded. -/
theorem status_ct_pairs (df : DataFrame) :
    (status_ct df).pairs = crosstab_pairs (fun r => cellKey r.state)
      (fun r => some (norm_status r.status)) df.rows := rfl

/-- The pairs of the signal crosstab, unfolded. -/
theorem signal_ct_pairs (df : DataFrame) :
    (signal_ct df).pairs = crosstab_pairs (fun r => cellKey r.state)
      (fun r => some (bucket_signal_strength r.signal_strength)) df.rows := rfl

/-- The issue matrix total counts the rows non-missing in both grouping
columns. -/
theorem matrixSum_issue (df : DataFrame)
    (h : "state" ∈ df.cols ∧ "issue_type" ∈ df.cols) :
    matrixSum (issue_matrix df)
      = df.rows.countP (fun r => (cellKey r.state).isSome
          && (cellKey r.issue_type).isSome) := by
  unfold issue_matrix
  rw [if_pos h]
  rw [matrixSum_emit _ _
    (show (issue_ct df).index.Nodup from crosstab_index_nodup _ _ _)
    (show (issue_ct df).columns.Nodup from crosstab_columns_nodup _ _ _)]
  have h1 : (issue_ct df).pairs.countP
      (fun p => decide (p.1 ∈ (issue_ct df).index)
        && decide (p.2 ∈ (issue_ct df).columns))
      = (issue_ct df).pairs.countP
        (fun p => decide (p.2 ∈ (issue_ct df).columns)) := by
    apply List.countP_congr
    intro p hp
    have hm : p.1 ∈ (issue_ct df).index := fst_mem_index hp
    simp [hm]
  have h2 : (issue_ct df).pairs.countP
      (fun p => decide (p.2 ∈ (issue_ct df).columns))
      = (issue_ct df).pairs.length :=
    countP_pairs_columns_true _ _ _ _ (fun x hx => hx)
  rw [h1, h2, issue_ct_pairs, length_crosstab_pairs]

/-- The status matrix total counts the rows with a non-missing state
whose normalized status is one of the three kept labels. -/
theorem matrixSum_status (df : DataFrame)
    (h : "state" ∈ df.cols ∧ "status" ∈ df.cols) :
    matrixSum (status_matrix df)
      = df.rows.countP (fun r => (cellKey r.state).isSome
          && decide (norm_status r.status ∈ status_order)) := by
  unfold status_matrix
  rw [if_pos h]
  rw [matrixSum_emit _ _
    (show (status_ct df).index.Nodup from crosstab_index_nodup _ _ _)
    (by decide)]
  have h1 : (status_ct df).pairs.countP
      (fun p => decide (p.1 ∈ (status_ct df).index)
        && decide (p.2 ∈ status_order))
      = (status_ct df).pairs.countP
        (fun p => decide (p.2 ∈ status_order)) := by
    apply List.countP_congr
    intro p hp
    have hm : p.1 ∈ (status_ct df).index := fst_mem_index hp
    simp [hm]
  rw [h1, status_ct_pairs, countP_crosstab_pairs_some (fun r => cellKey r.state)
    (fun r => norm_status r.status)
    (fun p => decide (p.2 ∈ status_order)) df.rows]
  apply List.countP_congr
  intro r _
  cases hr : cellKey r.state <;> simp [hr]

/-- The signal column list has no duplicates. -/
theorem signal_cols_nodup (df : DataFrame) : (signal_cols df).Nodup := by
  unfold signal_cols
  refine List.Nodup.append ?_ ?_ ?_
  · exact List.Nodup.filter _ (by decide)
  · exact ((sortAsc_perm _).nodup_iff).mpr
      (List.Nodup.filter _ (crosstab_columns_nodup _ _ _))
  · intro a ha hb
    have hb' := (List.mem_filter.mp (mem_sortAsc.mp hb)).2
    simp only [decide_eq_true_eq] at hb'
    exact hb' ha

/-- Membership in the signal column list is membership in the signal
crosstab's columns. -/
theorem mem_signal_cols (df : DataFrame) (x : String) :
    x ∈ signal_cols df ↔ x ∈ (signal_ct df).columns := by
  unfold signal_cols
  simp only [List.mem_append, mem_sortAsc, List.mem_filter,
    decide_eq_true_eq]
  constructor
  · rintro (⟨_, hc⟩ | ⟨hc, _⟩) <;> exact hc
  · intro hc
    by_cases hp : x ∈ preferred_order
    · exact Or.inl ⟨hp, hc⟩
    · exact Or.inr ⟨hc, by simp [List.mem_filter, hp]⟩

/-- The signal matrix total counts all rows with a non-missing state
(the bucketizer never yields a missing label). -/
theorem matrixSum_signal (df : DataFrame)
    (h : "state" ∈ df.cols ∧ "signal_strength" ∈ df.cols) :
    matrixSum (signal_matrix df)
      = df.rows.countP (fun r => (cellKey r.state).isSome) := by
  unfold signal_matrix
  rw [if_pos h]
  rw [matrixSum_emit _ _
    (show (signal_ct df).index.Nodup from crosstab_index_nodup _ _ _)
    (signal_cols_nodup df)]
  have h1 : (signal_ct df).pairs.countP
      (fun p => decide (p.1 ∈ (signal_ct df).index)
        && decide (p.2 ∈ signal_cols df))
      = (signal_ct df).pairs.countP
        (fun p => decide (p.2 ∈ signal_cols df)) := by
    apply List.countP_congr
    intro p hp
    have hm : p.1 ∈ (signal_ct df).index := fst_mem_index hp
    simp [hm]
  have h2 : (signal_ct df).pairs.countP
      (fun p => decide (p.2 ∈ signal_cols df))
      = (signal_ct df).pairs.length :=
    countP_pairs_columns_true _ _ _ _
      (fun x hx => (mem_signal_cols df x).mpr hx)
  rw [h1, h2, signal_ct_pairs, length_crosstab_pairs]
  apply List.countP_congr
  intro r _
  cases hr : cellKey r.state <;> simp [hr]

/-- The status-matrix sorting key of state `s` counts its rows whose
normalized status is a kept label. -/
theorem rowTotal_status (df : DataFrame) (s : String) :
    rowTotal (status_ct df) status_order s = statusKeptTotal df s := by
  rw [rowTotal_countP _ _ _ (by decide)]
  rw [status_ct_pairs, countP_crosstab_pairs_some (fun r => cellKey r.state)
    (fun r => norm_status r.status)
    (fun p => decide (p.1 = s) && decide (p.2 ∈ status_order)) df.rows]
  unfold statusKeptTotal
  apply List.countP_congr
  intro r _
  cases hr : cellKey r.state <;> simp [hr]

/-- Claim C1 (amended): the issue matrix total counts the rows non-null
in both `state` and `issue_type`; the status matrix total counts only the
rows with non-null `state` whose normalized status is one of the three
kept labels (other rows fall in no column); the signal matrix total
counts every row with non-null `state`, because missing or non-numeric
signals bucket to `No Signal` instead of being dropped. -/
theorem c1_matrix_sums (df : DataFrame) :
    ("state" ∈ df.cols ∧ "issue_type" ∈ df.cols →
      matrixSum (issue_matrix df)
        = df.rows.countP (fun r => (cellKey r.state).isSome
            && (cellKey r.issue_type).isSome))
    ∧ ("state" ∈ df.cols ∧ "status" ∈ df.cols →
      matrixSum (status_matrix df)
        = df.rows.countP (fun r => (cellKey r.state).isSome
            && decide (norm_status r.status ∈ status_order)))
    ∧ ("state" ∈ df.cols ∧ "signal_strength" ∈ df.cols →
      matrixSum (signal_matrix df)
        = df.rows.countP (fun r => (cellKey r.state).isSome)) :=
  ⟨fun h => matrixSum_issue df h, fun h => matrixSum_status df h,
   fun h => matrixSum_signal df h⟩

/-- Claim C1 counterexample: a single row whose state and status are both
non-null but whose status normalizes outside the kept labels is counted
in no cell of the status matrix, so the matrix total is 0 while the
both-non-null row count is 1. -/
theorem c1_matrix_sums_cex :
    ("state" ∈ weirdDf.cols ∧ "status" ∈ weirdDf.cols)
    ∧ matrixSum (status_matrix weirdDf) = 0
    ∧ weirdDf.rows.countP (fun r => (cellKey r.state).isSome
        && (cellKey r.status).isSome) = 1 := by
  decide

/-- Claim C1 witness: on the three-row scenario the signal matrix total
is the number of rows with a non-null state, namely 3. -/
theorem c1_matrix_sums_witness :
    ("state" ∈ sampleDf.cols ∧ "signal_strength" ∈ sampleDf.cols)
    ∧ matrixSum (signal_matrix sampleDf)
        = sampleDf.rows.countP (fun r => (cellKey r.state).isSome)
    ∧ sampleDf.rows.countP (fun r => (cellKey r.state).isSome) = 3 :=
  ⟨⟨by decide, by decide⟩, (c1_matrix_sums sampleDf).2.2 ⟨by decide, by decide⟩,
   by decide⟩

/-- Claim C9 (amended): with `state` and `status` present the status
matrix columns are exactly `Open`, `In Progress`, `Closed`; rows whose
status normalizes to any other label are counted in no column and do not
contribute to the sorting total either: the rows are ordered descending
by the per-state count of rows whose normalized status is a kept label,
the total being computed after the extra columns are dropped. -/
theorem c9_status_columns (df : DataFrame)
    (h : "state" ∈ df.cols ∧ "status" ∈ df.cols) :
    (status_matrix df).labels = ["Open", "In Progress", "Closed"]
    ∧ matrixSum (status_matrix df)
        = df.rows.countP (fun r => (cellKey r.state).isSome
            && decide (norm_status r.status ∈ status_order))
    ∧ (status_matrix df).states.Pairwise
        (fun a b => statusKeptTotal df b ≤ statusKeptTotal df a) := by
  refine ⟨?_, matrixSum_status df h, ?_⟩
  · unfold status_matrix
    rw [if_pos h]
    rfl
  · have hP : (status_matrix df).states.Pairwise (fun a b =>
        rowTotal (status_ct df) status_order b
          ≤ rowTotal (status_ct df) status_order a) := by
      unfold status_matrix
      rw [if_pos h]
      exact sortDescBy_pairwise _ _
    refine hP.imp ?_
    intro a b hab
    rw [← rowTotal_status df a, ← rowTotal_status df b]
    exact hab

/-- Claim C9 counterexample: in `tieDf`, state `A` has three rows (two of
them with an unrecognized status) and state `B` two; the emitted order is
`B` before `A`, which is not descending in the pre-drop totals (3 for
`A`, 2 for `B`), so the unrecognized rows do not feed the sorting
total. -/
theorem c9_status_columns_cex :
    ("state" ∈ tieDf.cols ∧ "status" ∈ tieDf.cols)
    ∧ (status_matrix tieDf).states = ["B", "A"]
    ∧ statusAllTotal tieDf "A" = 3
    ∧ statusAllTotal tieDf "B" = 2
    ∧ ¬ (status_matrix tieDf).states.Pairwise
        (fun a b => statusAllTotal tieDf b ≤ statusAllTotal tieDf a) := by
  refine ⟨⟨by decide, by decide⟩, by decide, by decide, by decide, ?_⟩
  intro hP
  rw [show (status_matrix tieDf).states = ["B", "A"] from by decide] at hP
  have h1 := (List.pairwise_cons.mp hP).1 "A" (by simp)
  rw [show statusAllTotal tieDf "A" = 3 from by decide,
      show statusAllTotal tieDf "B" = 2 from by decide] at h1
  omega

/-- Claim C9 witness: on `tieDf` the status matrix columns are exactly
the three fixed labels. -/
theorem c9_status_columns_witness :
    ("state" ∈ tieDf.cols ∧ "status" ∈ tieDf.cols)
    ∧ (status_matrix tieDf).labels = ["Open", "In Progress", "Closed"] :=
  ⟨⟨by decide, by decide⟩,
   (c9_status_columns tieDf ⟨by decide, by decide⟩).1⟩

/-- A column of the signal crosstab is an observed bucketed label. -/
theorem signal_columns_observed (df : DataFrame) (x : String) :
    x ∈ (signal_ct df).columns ↔ x ∈ observed_signals df := by
  have hcols : (signal_ct df).columns
      = sortAsc ((crosstab_pairs (fun r => cellKey r.state)
          (fun r => some (bucket_signal_strength r.signal_strength))
          df.rows).map Prod.snd).dedup := rfl
  rw [hcols, mem_sortAsc, List.mem_dedup, map_snd_crosstab_pairs]
  exact Iff.rfl

/-- The preferred part of the signal column list. -/
theorem signal_cols_filter_preferred (df : DataFrame) :
    (signal_cols df).filter (fun x => decide (x ∈ preferred_order))
      = preferred_order.filter
          (fun x => decide (x ∈ (signal_ct df).columns)) := by
  unfold signal_cols
  rw [List.filter_append]
  have hA : (preferred_order.filter
        (fun x => decide (x ∈ (signal_ct df).columns))).filter
        (fun x => decide (x ∈ preferred_order))
      = preferred_order.filter
          (fun x => decide (x ∈ (signal_ct df).columns)) := by
    apply List.filter_eq_self.mpr
    intro a ha
    simp [(List.mem_filter.mp ha).1]
  have hB : (sortAsc ((signal_ct df).columns.filter
        (fun x => decide (x ∉ preferred_order.filter
          (fun y => decide (y ∈ (signal_ct df).columns)))))).filter
        (fun x => decide (x ∈ preferred_order)) = [] := by
    apply List.filter_eq_nil_iff.mpr
    intro a ha
    simp only [decide_eq_true_eq]
    intro hpref
    have hmem := List.mem_filter.mp (mem_sortAsc.mp ha)
    have hcol : a ∈ (signal_ct df).columns := hmem.1
    have hne : a ∉ preferred_order.filter
        (fun y => decide (y ∈ (signal_ct df).columns)) :=
      of_decide_eq_true hmem.2
    exact hne (List.mem_filter.mpr ⟨hpref, by simpa using hcol⟩)
  rw [hA, hB, List.append_nil]

/-- The non-preferred part of the signal column list. -/
theorem signal_cols_filter_rest (df : DataFrame) :
    (signal_cols df).filter (fun x => decide (x ∉ preferred_order))
      = sortAsc ((signal_ct df).columns.filter
          (fun x => decide (x ∉ preferred_order.filter
            (fun y => decide (y ∈ (signal_ct df).columns))))) := by
  unfold signal_cols
  rw [List.filter_append]
  have hA : (preferred_order.filter
        (fun x => decide (x ∈ (signal_ct df).columns))).filter
        (fun x => decide (x ∉ preferred_order)) = [] := by
    apply List.filter_eq_nil_iff.mpr
    intro a ha
    simp [(List.mem_filter.mp ha).1]
  have hB : (sortAsc ((signal_ct df).columns.filter
        (fun x => decide (x ∉ preferred_order.filter
          (fun y => decide (y ∈ (signal_ct df).columns)))))).filter
        (fun x => decide (x ∉ preferred_order))
      = sortAsc ((signal_ct df).columns.filter
          (fun x => decide (x ∉ preferred_order.filter
            (fun y => decide (y ∈ (signal_ct df).columns))))) := by
    apply List.filter_eq_self.mpr
    intro a ha
    have hmem := List.mem_filter.mp (mem_sortAsc.mp ha)
    have hcol : a ∈ (signal_ct df).columns := hmem.1
    have hne : a ∉ preferred_order.filter
        (fun y => decide (y ∈ (signal_ct df).columns)) :=
      of_decide_eq_true hmem.2
    simp only [decide_eq_true_eq]
    intro hpref
    exact hne (List.mem_filter.mpr ⟨hpref, by simpa using hcol⟩)
  rw [hA, hB, List.nil_append]

/-- Claim C2 (amended): with both columns present, the signal label list
contains exactly the observed bucketed labels, without duplicates; it is
the preferred labels that occur (in the fixed order Strong, Moderate,
Weak, No Signal) followed by the remaining observed labels in ascending
lexicographic order.  Fixed labels that never occur are omitted, not
forced to zero-count columns. -/
theorem c2_signal_labels (df : DataFrame)
    (h : "state" ∈ df.cols ∧ "signal_strength" ∈ df.cols) :
    (∀ x, x ∈ (signal_matrix df).labels ↔ x ∈ observed_signals df)
    ∧ (signal_matrix df).labels.Nodup
    ∧ (signal_matrix df).labels
        = (signal_matrix df).labels.filter
            (fun x => decide (x ∈ preferred_order))
          ++ (signal_matrix df).labels.filter
            (fun x => decide (x ∉ preferred_order))
    ∧ (signal_matrix df).labels.filter
        (fun x => decide (x ∈ preferred_order))
        = preferred_order.filter
            (fun x => decide (x ∈ observed_signals df))
    ∧ ((signal_matrix df).labels.filter
        (fun x => decide (x ∉ preferred_order))).Pairwise
        (fun a b => strLt b a = false) := by
  have hlab : (signal_matrix df).labels = signal_cols df := by
    unfold signal_matrix
    rw [if_pos h]
    rfl
  refine ⟨?_, ?_, ?_, ?_, ?_⟩
  · intro x
    rw [hlab, mem_signal_cols, signal_columns_observed]
  · rw [hlab]
    exact signal_cols_nodup df
  · rw [hlab, signal_cols_filter_preferred, signal_cols_filter_rest]
    rfl
  · rw [hlab, signal_cols_filter_preferred]
    apply List.filter_congr
    intro x _
    by_cases hx : x ∈ (signal_ct df).columns
    · simp [hx, (signal_columns_observed df x).mp hx]
    · have : x ∉ observed_signals df :=
        fun hobs => hx ((signal_columns_observed df x).mpr hobs)
      simp [hx, this]
  · rw [hlab, signal_cols_filter_rest]
    exact sortAsc_pairwise _

/-- Claim C2 counterexample: a dataset whose every signal value buckets
to `Weak` yields the single column label `Weak`; the list does not begin
with the four fixed labels. -/
theorem c2_signal_labels_cex :
    ("state" ∈ weakDf.cols ∧ "signal_strength" ∈ weakDf.cols)
    ∧ (signal_matrix weakDf).labels = ["Weak"]
    ∧ ¬ ((signal_matrix weakDf).labels.take 4
          = ["Strong", "Moderate", "Weak", "No Signal"]) := by
  decide

/-- Claim C2 witness: on the three-row scenario the observed labels are
Strong, Weak, No Signal, and the label list keeps the preferred order. -/
theorem c2_signal_labels_witness :
    ("state" ∈ sampleDf.cols ∧ "signal_strength" ∈ sampleDf.cols)
    ∧ (signal_matrix sampleDf).labels.filter
        (fun x => decide (x ∈ preferred_order))
        = preferred_order.filter
            (fun x => decide (x ∈ observed_signals sampleDf))
    ∧ (signal_matrix sampleDf).labels = ["Strong", "Weak", "No Signal"] :=
  ⟨⟨by decide, by decide⟩,
   (c2_signal_labels sampleDf ⟨by decide, by decide⟩).2.2.2.1, by decide⟩

/-- Claim C8 (amended): with a required column absent, the matrix is
emitted with empty row labels, empty column labels and an empty counts
mapping; the signal matrix alone additionally carries a diagnostic
message, but it is one fixed string naming both required columns
regardless of which of them are missing; the other two matrices never
carry an error field. -/
theorem c8_missing_columns (df : DataFrame) :
    (¬ ("state" ∈ df.cols ∧ "issue_type" ∈ df.cols) →
      issue_matrix df = { states := [], labels := [], matrix := [] })
    ∧ (¬ ("state" ∈ df.cols ∧ "status" ∈ df.cols) →
      status_matrix df = { states := [], labels := [], matrix := [] })
    ∧ (¬ ("state" ∈ df.cols ∧ "signal_strength" ∈ df.cols) →
      signal_matrix df
        = { states := [], labels := [], matrix := [],
            error := some "Required columns \x27state\x27 and \x27signal_strength\x27 not found in dataset." })
    ∧ (("state" ∈ df.cols ∧ "signal_strength" ∈ df.cols) →
      (signal_matrix df).error = none)
    ∧ (issue_matrix df).error = none
    ∧ (status_matrix df).error = none := by
  refine ⟨?_, ?_, ?_, ?_, ?_, ?_⟩
  · intro h
    unfold issue_matrix
    rw [if_neg h]
  · intro h
    unfold status_matrix
    rw [if_neg h]
  · intro h
    unfold signal_matrix
    rw [if_neg h]
  · intro h
    unfold signal_matrix
    rw [if_pos h]
    rfl
  · unfold issue_matrix
    split <;> rfl
  · unfold status_matrix
    split <;> rfl

/-- Claim C8 counterexample: two datasets with different sets of missing
required columns receive the identical diagnostic string, which names
`state` as not found even when `state` is present — the message does not
state which required columns were missing. -/
theorem c8_missing_columns_cex :
    "state" ∈ stateOnlyDf.cols
    ∧ "signal_strength" ∉ stateOnlyDf.cols
    ∧ "state" ∉ signalOnlyDf.cols
    ∧ "signal_strength" ∈ signalOnlyDf.cols
    ∧ (signal_matrix stateOnlyDf).error = (signal_matrix signalOnlyDf).error
    ∧ (signal_matrix stateOnlyDf).error
        = some "Required columns \x27state\x27 and \x27signal_strength\x27 not found in dataset." := by
  decide

/-- Claim C8 witness: a dataset without `signal_strength` yields the
empty signal matrix with the fixed diagnostic message. -/
theorem c8_missing_columns_witness :
    ¬ ("state" ∈ stateOnlyDf.cols ∧ "signal_strength" ∈ stateOnlyDf.cols)
    ∧ signal_matrix stateOnlyDf
        = { states := [], labels := [], matrix := [],
            error := some "Required columns \x27state\x27 and \x27signal_strength\x27 not found in dataset." } :=
  ⟨by decide, (c8_missing_columns stateOnlyDf).2.2.1 (by decide)⟩
